import Mathlib

/-!
Verification of the hput server (Go) against its specification.

Shallow embedding conventions:
* Go strings are byte sequences; request/payload bodies are modelled as `List Nat`
  (one entry per byte).  Paths, diagnostics and other strings whose byte-level
  structure is irrelevant to the claims are modelled as Lean `String`.
* Go maps are modelled as association lists with a replace-or-append update
  (`mapUpsert`); iteration order of a Go map is unspecified, so list order is
  never relied upon by a theorem beyond "order unconstrained".
* Mutation through pointers (`*hput.PutResult`) is modelled by returning the
  updated value.
* The Go field `Type` is rendered as `Typ` (`Type` is a Lean keyword).
* Channels (`runnables chan<- hput.Runnable`, `done chan<- bool`) are modelled
  by the trace of send events the goroutine performs, in program order.
-/

/-- Bytes of a Lean string, one entry per character code point.  Models the
Go conversion `[]byte(s)` for the strings the claims inspect (an injection is
all the proofs need). -/
def strBytes (s : String) : List Nat :=
  s.data.map Char.toNat

/-- ASCII lower-casing of one character.  Go's `strings.ToLower` applies the
full Unicode simple case mapping; the code only ever compares the result
against the ASCII literals "/dump" and "/logs", for which the ASCII mapping
agrees (no character outside A-Z lower-cases to an ASCII letter found in
those literals). -/
def charToLower (c : Char) : Char :=
  if 'A' ≤ c ∧ c ≤ 'Z' then Char.ofNat (c.toNat + 32) else c

/-- Model of Go `strings.ToLower`. -/
def goToLower (s : String) : String :=
  String.mk (s.data.map charToLower)

/-- Model of Go `strings.HasPrefix` / `bytes.HasPrefix` (character-wise;
Go compares bytes, which agrees on whether one string is a prefix of
another). -/
def goStartsWith (s pre : String) : Bool :=
  pre.data.isPrefixOf s.data

/-- Model of Go `net/url.URL`; only the `Path` field is used by the code
under verification. -/
structure URL where
  Path : String
deriving DecidableEq

/-- Model of `hput.Runnable` (src/hput.go).  `Typ` is the Go field `Type`
(a Go string: "" zero value, "Text", "Javascript" or "Binary"). -/
structure Runnable where
  Path : String
  Typ : String
  Text : List Nat
  Binary : List Nat
deriving DecidableEq

/-- Model of `hput.PutResult` (src/hput.go). -/
structure PutResult where
  Input : String
  Overwrote : Bool
  Message : String
deriving DecidableEq

/-- Model of the unexported `mapsaver.runnable` struct
(src/mapsaver/mapsaver.go). -/
structure MRunnable where
  Typ : String
  val : List Nat
  bytes : List Nat
deriving DecidableEq

/-- The package-level map `var texts = make(map[string]runnable)` of
src/mapsaver/mapsaver.go, modelled as an association list threaded
explicitly through every operation.  It is deliberately NOT a field of
`MapSaver`: in the Go source it is package-level state shared by every
`MapSaver` value. -/
abbrev MapState := List (String × MRunnable)

/-- Go map update `m[k] = v`: replace the binding if the key is present,
otherwise add it. -/
def mapUpsert {α : Type} : List (String × α) → String → α → List (String × α)
  | [], k, v => [(k, v)]
  | e :: rest, k, v => if e.1 = k then (k, v) :: rest else e :: mapUpsert rest k v

/-- Model of `mapsaver.MapSaver`; the Go struct holds only a logger (here an
opaque tag), and in particular does not hold the storage map. -/
structure MapSaver where
  Logger : String
deriving DecidableEq

/-- Model of `MapSaver.SaveText`: report an overwrite if the path is already
bound, then store the text runnable.  Logging is dropped.  The Go method
mutates `r` and the package map; here both updated values are returned. -/
def MapSaver.SaveText (_ : MapSaver) (s : List Nat) (p : URL) (r : PutResult)
    (texts : MapState) : PutResult × MapState :=
  let r := if (texts.lookup p.Path).isSome then { r with Overwrote := true } else r
  (r, mapUpsert texts p.Path { Typ := "Text", val := s, bytes := [] })

/-- Model of `MapSaver.SaveCode`. -/
def MapSaver.SaveCode (_ : MapSaver) (s : List Nat) (p : URL) (r : PutResult)
    (texts : MapState) : PutResult × MapState :=
  let r := if (texts.lookup p.Path).isSome then { r with Overwrote := true } else r
  (r, mapUpsert texts p.Path { Typ := "Javascript", val := s, bytes := [] })

/-- Model of `MapSaver.SaveBinary`. -/
def MapSaver.SaveBinary (_ : MapSaver) (b : List Nat) (p : URL) (r : PutResult)
    (texts : MapState) : PutResult × MapState :=
  let r := if (texts.lookup p.Path).isSome then { r with Overwrote := true } else r
  (r, mapUpsert texts p.Path { Typ := "Binary", val := [], bytes := b })

/-- Model of `MapSaver.GetRunnable`: the zero `hput.Runnable` when the path is
unbound, otherwise the stored runnable (the Go method always returns a nil
error, so the error component is dropped). -/
def MapSaver.GetRunnable (_ : MapSaver) (p : URL) (texts : MapState) : Runnable :=
  match texts.lookup p.Path with
  | none => { Path := "", Typ := "", Text := [], Binary := [] }
  | some r => { Path := "", Typ := r.Typ, Text := r.val, Binary := r.bytes }

/-- One event observable on the two channels handed to `SendRunnables`. -/
inductive SendEvent
  | runnable (r : Runnable)
  | done
deriving DecidableEq

/-- The `hput.Runnable` that `MapSaver.SendRunnables` sends for a map entry:
the Go code copies `Path`, `Type` and `Text` and leaves `Binary` nil. -/
def MapSaver.sentRunnable (e : String × MRunnable) : Runnable :=
  { Path := e.1, Typ := e.2.Typ, Text := e.2.val, Binary := [] }

/-- Model of `MapSaver.SendRunnables` as the trace of channel sends: iterate
the map, send each runnable whose key has the requested leading string, then
send `true` on the done channel. -/
def MapSaver.SendRunnablesTrace (m : MapSaver) (p : String) : MapState → List SendEvent
  | [] => [SendEvent.done]
  | e :: rest =>
    if goStartsWith e.1 p then
      SendEvent.runnable (MapSaver.sentRunnable e) :: MapSaver.SendRunnablesTrace m p rest
    else
      MapSaver.SendRunnablesTrace m p rest

/-! ## discsaver (src/discsaver/db.go)

The bolt database holds, under the single bucket, a mapping from path bytes
to the JSON-marshalled bytes of the saved `hput.Runnable`.  `json.Marshal` /
`json.Unmarshal` are external; they are modelled by a concrete injective
encoding into byte lists (`marshalRunnable` / `unmarshalRunnable`) with the
two properties the code relies on: a marshalled runnable is never the empty
byte string, and unmarshalling inverts marshalling. -/

/-- Length-prefixed encoding of a string field. -/
def encStr (s : String) : List Nat :=
  s.length :: s.data.map Char.toNat

/-- Length-prefixed encoding of a byte-list field. -/
def encBytes (l : List Nat) : List Nat :=
  l.length :: l

/-- Decoder matching `encStr`; returns the field and the remaining bytes. -/
def decStr : List Nat → Option (String × List Nat)
  | [] => none
  | n :: rest =>
    if n ≤ rest.length then
      some (String.mk ((rest.take n).map Char.ofNat), rest.drop n)
    else none

/-- Decoder matching `encBytes`. -/
def decBytes : List Nat → Option (List Nat × List Nat)
  | [] => none
  | n :: rest =>
    if n ≤ rest.length then some (rest.take n, rest.drop n) else none

/-- Model of `json.Marshal` on an `hput.Runnable` (never empty, injective). -/
def marshalRunnable (ru : Runnable) : List Nat :=
  encStr ru.Path ++ encStr ru.Typ ++ encBytes ru.Text ++ encBytes ru.Binary

/-- Model of `json.Unmarshal` into an `hput.Runnable`. -/
def unmarshalRunnable (bs : List Nat) : Option Runnable := do
  let (path, r1) ← decStr bs
  let (typ, r2) ← decStr r1
  let (text, r3) ← decBytes r2
  let (bin, _) ← decBytes r3
  some { Path := path, Typ := typ, Text := text, Binary := bin }

/-- Contents of the bolt bucket: path ↦ marshalled runnable bytes. -/
abbrev DiscState := List (String × List Nat)

/-- Model of `discsaver.Saver`; the db handle and logger are opaque. -/
structure Saver where
  Logger : String
deriving DecidableEq

/-- Model of `Saver.saveRunnable`: inside one `Db.Update` transaction, read
the existing bytes at the path, report an overwrite when they are non-empty,
and write the marshalled runnable.  The check and the write are part of the
same call, which returns both the updated `PutResult` and the new state. -/
def Saver.saveRunnable (_ : Saver) (ru : Runnable) (p : URL) (r : PutResult)
    (db : DiscState) : PutResult × DiscState :=
  let v := marshalRunnable ru
  let existing := (db.lookup p.Path).getD []
  let r := if existing.length > 0 then { r with Overwrote := true } else r
  (r, mapUpsert db p.Path v)

/-- Model of `Saver.SaveText`. -/
def Saver.SaveText (sa : Saver) (s : List Nat) (p : URL) (r : PutResult)
    (db : DiscState) : PutResult × DiscState :=
  Saver.saveRunnable sa { Path := "", Typ := "Text", Text := s, Binary := [] } p r db

/-- Model of `Saver.SaveCode`. -/
def Saver.SaveCode (sa : Saver) (s : List Nat) (p : URL) (r : PutResult)
    (db : DiscState) : PutResult × DiscState :=
  Saver.saveRunnable sa { Path := "", Typ := "Javascript", Text := s, Binary := [] } p r db

/-- Model of `Saver.SaveBinary`. -/
def Saver.SaveBinary (sa : Saver) (b : List Nat) (p : URL) (r : PutResult)
    (db : DiscState) : PutResult × DiscState :=
  Saver.saveRunnable sa { Path := "", Typ := "Binary", Text := [], Binary := b } p r db

/-- Model of `Saver.GetRunnable`: zero runnable when no bytes are stored,
an unmarshalling error otherwise surfaced as `Except.error`, and on success
the stored runnable with its `Path` set to the queried path. -/
def Saver.GetRunnable (_ : Saver) (p : URL) (db : DiscState) : Except String Runnable :=
  match (db.lookup p.Path).getD [] with
  | [] => Except.ok { Path := "", Typ := "", Text := [], Binary := [] }
  | b :: bs =>
    match unmarshalRunnable (b :: bs) with
    | none => Except.error ("error unmarshaling runnable from database")
    | some ru => Except.ok { ru with Path := p.Path }

/-- Helper for `Saver.SendRunnables`: the cursor scan over keys having the
requested leading string.  Returns the events sent on the runnables channel
and whether the scan aborted on an unmarshalling error. -/
def Saver.sendScan (p : String) : DiscState → List SendEvent × Bool
  | [] => ([], false)
  | (k, v) :: rest =>
    if goStartsWith k p then
      match unmarshalRunnable v with
      | none => ([], true)
      | some ru =>
        let (evs, e) := Saver.sendScan p rest
        (SendEvent.runnable { ru with Path := k } :: evs, e)
    else Saver.sendScan p rest

/-- Model of `Saver.SendRunnables` as the trace of channel sends: the cursor
scan emits each matching runnable, and the deferred `done <- true` fires
after the scan finishes (also when it aborted on a decode error). -/
def Saver.SendRunnablesTrace (_ : Saver) (p : String) (db : DiscState) : List SendEvent :=
  (Saver.sendScan p db).1 ++ [SendEvent.done]

/-- The runnable `Saver.SendRunnables` emits for a stored entry: the decoded
runnable with its `Path` set to the entry's key. -/
def Saver.decodedRunnable (e : String × List Nat) : Runnable :=
  match unmarshalRunnable e.2 with
  | some ru => { ru with Path := e.1 }
  | none => { Path := e.1, Typ := "", Text := [], Binary := [] }

/-! ## UTF-8 rune decoding (Go `unicode/utf8`, as used by `strings.ContainsRune`)

`service.Put` runs `strings.ContainsRune(shortStr, '�')` over the string
built from the first 200 payload bytes.  Ranging over a Go string decodes one
rune per step with `utf8.DecodeRuneInString`: an invalid byte sequence yields
the replacement rune U+FFFD with width 1, and a literal well-formed U+FFFD
(bytes EF BF BD) also yields U+FFFD.  `utf8Decode` is a direct translation of
that decoder on byte lists. -/

/-- The Unicode replacement character U+FFFD (`service.invalidRune`). -/
def invalidRune : Nat := 0xFFFD

/-- Decode the first rune of a byte list, Go-style: returns the rune value
and the number of bytes consumed (0 only on empty input; 1 on any invalid or
truncated encoding, which decodes to U+FFFD). -/
def utf8Decode : List Nat → Nat × Nat
  | [] => (invalidRune, 0)
  | b0 :: rest =>
    if b0 < 0x80 then (b0, 1)
    else if b0 < 0xC2 then (invalidRune, 1)
    else if b0 ≤ 0xDF then
      match rest with
      | b1 :: _ =>
        if 0x80 ≤ b1 ∧ b1 ≤ 0xBF then
          ((b0 - 0xC0) * 0x40 + (b1 - 0x80), 2)
        else (invalidRune, 1)
      | [] => (invalidRune, 1)
    else if b0 ≤ 0xEF then
      let lo1 := if b0 = 0xE0 then 0xA0 else 0x80
      let hi1 := if b0 = 0xED then 0x9F else 0xBF
      match rest with
      | b1 :: b2 :: _ =>
        if lo1 ≤ b1 ∧ b1 ≤ hi1 ∧ 0x80 ≤ b2 ∧ b2 ≤ 0xBF then
          ((b0 - 0xE0) * 0x1000 + (b1 - 0x80) * 0x40 + (b2 - 0x80), 3)
        else (invalidRune, 1)
      | _ => (invalidRune, 1)
    else if b0 ≤ 0xF4 then
      let lo1 := if b0 = 0xF0 then 0x90 else 0x80
      let hi1 := if b0 = 0xF4 then 0x8F else 0xBF
      match rest with
      | b1 :: b2 :: b3 :: _ =>
        if lo1 ≤ b1 ∧ b1 ≤ hi1 ∧ 0x80 ≤ b2 ∧ b2 ≤ 0xBF ∧ 0x80 ≤ b3 ∧ b3 ≤ 0xBF then
          ((b0 - 0xF0) * 0x40000 + (b1 - 0x80) * 0x1000 + (b2 - 0x80) * 0x40 + (b3 - 0x80), 4)
        else (invalidRune, 1)
      | _ => (invalidRune, 1)
    else (invalidRune, 1)

/-- Fuelled rune scan; the fuel is the byte count, and each step consumes at
least one byte, so fuel never runs out on real input. -/
def containsInvalidAux : Nat → List Nat → Bool
  | 0, _ => false
  | _, [] => false
  | fuel + 1, bs =>
    let d := utf8Decode bs
    if d.1 = invalidRune then true
    else containsInvalidAux fuel (bs.drop (max d.2 1))

/-- Model of `strings.ContainsRune(string(bs), '�')`: does ranging over
the bytes as a Go string ever decode the replacement rune? -/
def goContainsInvalidRune (bs : List Nat) : Bool :=
  containsInvalidAux bs.length bs

/-! ## service (src/service/service.go) -/

/-- Model of `service.lastN`: the last `n` characters of a string (the Go
code slices the last `n` bytes; the two agree on whether the result equals
an ASCII literal such as "/dump", which is all the code compares against). -/
def lastN (s : String) (n : Nat) : String :=
  if s.length < n then s else String.mk (s.data.drop (s.length - n))

/-- Errors `Service.Put` can return. -/
inductive PutErr
  | cannotReadPostPayload
  | putToDump
  | putToLogs
deriving DecidableEq

instance {ε α : Type} [DecidableEq ε] [DecidableEq α] : DecidableEq (Except ε α) := fun a b =>
  match a, b with
  | Except.error e1, Except.error e2 =>
    if h : e1 = e2 then isTrue (by rw [h]) else isFalse (by intro hh; cases hh; exact h rfl)
  | Except.error _, Except.ok _ => isFalse (by intro hh; cases hh)
  | Except.ok _, Except.error _ => isFalse (by intro hh; cases hh)
  | Except.ok v1, Except.ok v2 =>
    if h : v1 = v2 then isTrue (by rw [h]) else isFalse (by intro hh; cases hh; exact h rfl)

/-- Observable outcome of one `Service.Put` call: the returned
`(*hput.PutResult, error)` pair, the storage state after the call, whether
`Interpreter.IsCode` was consulted, which saver method (if any) persisted the
payload, and whether the "overwriting something" notice was written to the
response. -/
structure PutOutcome where
  result : Except PutErr PutResult
  state : MapState
  checkedIsCode : Bool
  savedVia : Option String
  wroteOverwriteNotice : Bool
deriving DecidableEq

/-- Model of `Service.Put` over the in-memory backend.  `isCode` stands for
`Interpreter.IsCode` applied to the payload string (external engine: a
compile check returning success plus a diagnostic).  The request body is
assumed already read (a read failure returns `cannotReadPostPayload` before
any of the logic modelled here). -/
def Service.Put (m : MapSaver) (isCode : List Nat → Bool × String) (u : URL)
    (b : List Nat) (st : MapState) : PutOutcome :=
  if goToLower (lastN u.Path 5) = "/dump" then
    { result := Except.error PutErr.putToDump, state := st,
      checkedIsCode := false, savedVia := none, wroteOverwriteNotice := false }
  else if goToLower (lastN u.Path 5) = "/logs" then
    { result := Except.error PutErr.putToLogs, state := st,
      checkedIsCode := false, savedVia := none, wroteOverwriteNotice := false }
  else
    let prior := MapSaver.GetRunnable m u st
    let notice := prior.Typ ≠ ""
    if goContainsInvalidRune (b.take 200) then
      let res : PutResult :=
        { Input := "Binary", Overwrote := false,
          Message := "I think this is a binary file, saving it as such" }
      let (res, st) := MapSaver.SaveBinary m b u res st
      { result := Except.ok res, state := st,
        checkedIsCode := false, savedVia := some ("Binary"),
        wroteOverwriteNotice := notice }
    else
      let c := isCode b
      if !c.1 then
        let res : PutResult := { Input := "Text", Overwrote := false, Message := c.2 }
        let (res, st) := MapSaver.SaveText m b u res st
        { result := Except.ok res, state := st,
          checkedIsCode := true, savedVia := some ("Text"),
          wroteOverwriteNotice := notice }
      else
        let res : PutResult := { Input := "Javascript", Overwrote := false, Message := "" }
        let (res, st) := MapSaver.SaveCode m b u res st
        { result := Except.ok res, state := st,
          checkedIsCode := true, savedVia := some ("Javascript"),
          wroteOverwriteNotice := notice }

/-- One write the service performs on the `http.ResponseWriter`. -/
inductive RunEffect
  | status (code : Nat)
  | body (bs : List Nat)
deriving DecidableEq

/-- The 400 body `Service.Run` writes when a path holds nothing. -/
def nothingAtPathMsg (path : String) : List Nat :=
  strBytes ("There is nothing at path: '" ++ path ++
    "', you can use a PUT verb to add something\n")

/-- Model of `Service.respondWithRunnable`: the replay statements written for
one runnable during a dump or an overwrite notice. -/
def Service.respondWithRunnable (run : Runnable) (dumpedFirst : Bool) : List RunEffect :=
  if run.Typ = "Text" ∨ run.Typ = "Javascript" then
    (if !dumpedFirst then
      [RunEffect.body (strBytes ("var xhr = new XMLHttpRequest();\n"))]
     else
      [RunEffect.body (strBytes ("xhr = new XMLHttpRequest();\n"))]) ++
    [RunEffect.body (strBytes ("xhr.withCredentials = true;\n")),
     RunEffect.body (strBytes ("xhr.open(\"PUT\", \"http://localhost" ++ run.Path ++ "\");\n")),
     RunEffect.body (strBytes ("xhr.send(`") ++ run.Text ++ strBytes ("`);\n"))]
  else if run.Typ = "Binary" then
    [RunEffect.body (strBytes ("// binary at http://localhost" ++ run.Path ++ "\n"))]
  else []

/-- Consume the `SendRunnables` trace the way `Service.dumpPath`'s select
loop does: render each runnable (threading the dumped-first flag) and stop
at the done signal. -/
def Service.renderEvents : List SendEvent → Bool → List RunEffect
  | [], _ => []
  | SendEvent.done :: _, _ => []
  | SendEvent.runnable r :: rest, df =>
    Service.respondWithRunnable r df ++ Service.renderEvents rest true

/-- Model of `Service.dumpPath` over the in-memory backend. -/
def Service.dumpPath (m : MapSaver) (u : URL) (st : MapState) : List RunEffect :=
  let pStr := String.mk (u.Path.data.take (u.Path.data.length - 5))
  RunEffect.body (strBytes ("//Dumping creation instructions v0.2\n")) ::
    Service.renderEvents (MapSaver.SendRunnablesTrace m pStr st) false

/-- Model of `Service.Run` over the in-memory backend.  `interp` stands for
`Interpreter.Run` applied to the stored script source: it yields either an
execution error (propagated) or the response writes the script performed. -/
def Service.Run (m : MapSaver) (interp : List Nat → Except String (List RunEffect))
    (u : URL) (st : MapState) : Except String (List RunEffect) :=
  if goToLower (lastN u.Path 5) = "/dump" then
    Except.ok (Service.dumpPath m u st)
  else
    let val := MapSaver.GetRunnable m u st
    if val.Typ = "" ∨ (val.Typ ≠ "Binary" ∧ val.Text = []) ∨
        (val.Typ = "Binary" ∧ val.Binary = []) then
      Except.ok [RunEffect.status 400, RunEffect.body (nothingAtPathMsg u.Path)]
    else if val.Typ = "Binary" then
      Except.ok [RunEffect.status 200, RunEffect.body val.Binary]
    else if val.Typ = "Text" then
      Except.ok [RunEffect.status 200, RunEffect.body val.Text]
    else if val.Typ = "Javascript" then
      match interp val.Text with
      | Except.error e => Except.error e
      | Except.ok effs => Except.ok effs
    else
      Except.ok []

/-! ## javascript (src/v0.1/javascript/js.go and src/internal/polyfills)

The V8 engine is an external primitive.  The embedding keeps the host-side
control flow of `Javascript.Run` exact and abstracts one script evaluation
(`ctx.RunScript` plus the microtask/event-loop activity it triggers) as an
`Engine` function of the script source, the request, and the freshly built
execution context.  Because the Go code builds a brand-new isolate, context
and event loop for every call (`newContext`), the embedding gives `Run` no
other state to read — which is exactly the isolation property under test. -/

/-- Settlement state of a V8 promise (`v8.Pending` / `v8.Fulfilled` /
`v8.Rejected`). -/
inductive PromiseState
  | pending
  | fulfilled
  | rejected
deriving DecidableEq

/-- A V8 value as far as `Javascript.Run`'s serialization logic can observe
it.  Non-int32 numbers and big integers carry their textual form (kept
symbolic: no floating point is modelled). -/
inductive JSValue
  | undefined
  | null
  | boolean (b : Bool)
  | int32 (n : Int)
  | number (text : String)
  | bigint (text : String)
  | string (s : String)
  | object (json : String)
deriving DecidableEq

/-- The predicate `val.IsObject()`. -/
def JSValue.isObject : JSValue → Bool
  | JSValue.object _ => true
  | _ => false

/-- The predicate `val.IsString()`. -/
def JSValue.isString : JSValue → Bool
  | JSValue.string _ => true
  | _ => false

/-- The predicate `val.IsInt32()`. -/
def JSValue.isInt32 : JSValue → Bool
  | JSValue.int32 _ => true
  | _ => false

/-- The predicate `val.IsBigInt()`. -/
def JSValue.isBigInt : JSValue → Bool
  | JSValue.bigint _ => true
  | _ => false

/-- The predicate `val.IsBoolean()`. -/
def JSValue.isBoolean : JSValue → Bool
  | JSValue.boolean _ => true
  | _ => false

/-- The predicate `val.IsNumber()` (true for int32 values and for all other
numbers); the claim under test speaks of "number" values, the code never
calls this predicate. -/
def JSValue.isNumber : JSValue → Bool
  | JSValue.int32 _ => true
  | JSValue.number _ => true
  | _ => false

/-- The textual form `val.String()`. -/
def JSValue.textual : JSValue → String
  | JSValue.undefined => "undefined"
  | JSValue.null => "null"
  | JSValue.boolean b => if b then "true" else "false"
  | JSValue.int32 n => toString n
  | JSValue.number t => t
  | JSValue.bigint t => t
  | JSValue.string s => s
  | JSValue.object j => j

/-- The JSON encoding `val.MarshalJSON()`; only ever applied to objects. -/
def JSValue.marshalJSON : JSValue → List Nat
  | JSValue.object j => strBytes j
  | v => strBytes v.textual

/-- Model of `http.Request` (only the parts the bindings read). -/
structure Request where
  method : String
  path : String
  body : List Nat
deriving DecidableEq

/-- An execution context as built by `Javascript.newContext` plus the
attach calls in `Run`: the names bound into the fresh context's global
object, the pending timers of its (fresh) event loop, and the request the
`request` binding was built from. -/
structure ExecContext where
  globals : List String
  timers : List Nat
  requestBinding : Option Request
deriving DecidableEq

/-- Model of `Javascript.newContext`: a fresh isolate and context holding
only the injected polyfills, paired with a brand-new, empty event loop
(`polyfills.NewEventLoop`).  Nothing here depends on any earlier execution. -/
def newContext : ExecContext :=
  { globals := ["fetch", "setTimeout", "clearTimeout", "setInterval", "clearInterval"],
    timers := [],
    requestBinding := none }

/-- The context `Run` hands to the engine: `newContext` plus the `request`,
`response` and `console` bindings for this call's own request. -/
def contextForRun (r : Request) : ExecContext :=
  { newContext with
    globals := newContext.globals ++ ["request", "response", "console"],
    requestBinding := some r }

/-- How a promise returned by the script behaves under the drain loop:
its state as observed at the i-th iteration of the settle loop, the value
`Result()` yields once fulfilled, and the `Result().String()` text once
rejected. -/
structure PromiseBehavior where
  stateAt : Nat → PromiseState
  fulfilledVal : JSValue
  rejectMsg : String

/-- What one engine evaluation of the script produces: a script error
(uncaught exception / compile failure) or a returned value, which may be a
promise with the given settlement behavior. -/
structure EngineOutcome where
  err : Option String
  val : JSValue
  promise : Option PromiseBehavior

/-- The external scripting engine: evaluates a source string against a
request and a freshly built execution context. -/
def Engine : Type :=
  String → Request → ExecContext → EngineOutcome

/-- The settle loop `for promise.State() == v8.Pending && time.Now().Before(deadline)`:
starting at check index `i` with the given fuel (one unit per drain pass the
30-second wall clock admits), return the check index at which the loop
exits. -/
def drainLoop (tr : Nat → PromiseState) : Nat → Nat → Nat
  | 0, i => i
  | fuel + 1, i => if tr i = PromiseState.pending then drainLoop tr fuel (i + 1) else i

/-- Drain passes admitted by the fixed 30-second execution deadline. -/
def promiseDeadlineFuel : Nat := 30

/-- The promise phase of `Javascript.Run`, exactly as coded: loop while the
promise is pending and the deadline has not elapsed; afterwards return an
error only if the promise is Rejected, and otherwise take `promise.Result()`
as the new value.  A promise still pending when the loop exits is NOT
reported as an error: the code falls through and calls `Result()` on the
still-pending promise (an invalid V8 API use, modelled as undefined). -/
def settlePromise (pb : PromiseBehavior) : Except String JSValue :=
  let j := drainLoop pb.stateAt promiseDeadlineFuel 0
  match pb.stateAt j with
  | PromiseState.rejected => Except.error ("script promise rejected: " ++ pb.rejectMsg)
  | PromiseState.fulfilled => Except.ok pb.fulfilledVal
  | PromiseState.pending => Except.ok JSValue.undefined

/-- The final-value serialization at the end of `Javascript.Run`: objects
are JSON-encoded, string / int32 / bigint / boolean values are written in
textual form, anything else writes nothing. -/
def serializeFinalValue (v : JSValue) : Option (List Nat) :=
  if v.isObject then some v.marshalJSON
  else if v.isString || v.isInt32 || v.isBigInt || v.isBoolean then
    some (strBytes v.textual)
  else none

/-- Model of `Javascript.Run` (src/v0.1/javascript/js.go): build a fresh
context, evaluate the script, settle a returned promise under the deadline,
and serialize the final value to the response.  Returns the bytes appended
to the response body, or the execution error. -/
def Javascript.Run (engine : Engine) (c : String) (r : Request) : Except String (List Nat) :=
  let ctx := contextForRun r
  let out := engine c r ctx
  match out.err with
  | some e => Except.error ("got an error running the script: " ++ e)
  | none =>
    let settled : Except String JSValue :=
      match out.promise with
      | some pb => settlePromise pb
      | none => Except.ok out.val
    match settled with
    | Except.error e => Except.error e
    | Except.ok v => Except.ok ((serializeFinalValue v).getD [])

/-- A sequence of script executions served by the same interpreter value,
in request order. -/
def runAll (engine : Engine) (jobs : List (String × Request)) : List (Except String (List Nat)) :=
  jobs.map (fun j => Javascript.Run engine j.1 j.2)

/-- An engine whose evaluation returns the given plain value. -/
def constEngine (v : JSValue) : Engine :=
  fun _ _ _ => { err := none, val := v, promise := none }

/-- An engine for a script whose top-level value is a promise that never
settles (for example the script "new Promise(function (res, rej) ...)" with
a body that never calls either callback). -/
def stuckPromiseEngine : Engine :=
  fun _ _ _ =>
    { err := none, val := JSValue.object ("Promise"),
      promise := some
        { stateAt := fun _ => PromiseState.pending,
          fulfilledVal := JSValue.undefined,
          rejectMsg := "" } }

/-- An engine for a script whose top-level promise rejects on the first
microtask checkpoint with message "boom". -/
def rejectedPromiseEngine : Engine :=
  fun _ _ _ =>
    { err := none, val := JSValue.object ("Promise"),
      promise := some
        { stateAt := fun i => if i = 0 then PromiseState.pending else PromiseState.rejected,
          fulfilledVal := JSValue.undefined,
          rejectMsg := "boom" } }

/-- An engine for a script whose top-level promise fulfils with the given
value on the first microtask checkpoint. -/
def fulfilledPromiseEngine (v : JSValue) : Engine :=
  fun _ _ _ =>
    { err := none, val := JSValue.object ("Promise"),
      promise := some
        { stateAt := fun i => if i = 0 then PromiseState.pending else PromiseState.fulfilled,
          fulfilledVal := v,
          rejectMsg := "" } }

/-- A concrete request used by closed evaluation theorems. -/
def req0 : Request :=
  { method := "GET", path := "/x", body := [] }

@[simp]
theorem lookup_mapUpsert_self {α : Type} (l : List (String × α)) (k : String) (v : α) :
    (mapUpsert l k v).lookup k = some v := by
  induction l with
  | nil => simp [mapUpsert, List.lookup]
  | cons e rest ih =>
    by_cases h : e.1 = k
    · simp [mapUpsert, h, List.lookup]
    · simp only [mapUpsert, h, if_false, List.lookup]
      have : (k == e.1) = false := by
        simp [beq_iff_eq]
        exact fun hk => h hk.symm
      simp [this, ih]

@[simp]
theorem decStr_encStr (s : String) (t : List Nat) :
    decStr (encStr s ++ t) = some (s, t) := by
  obtain ⟨data⟩ := s
  have hlen : (String.mk data).length = (data.map Char.toNat).length := by
    simp [String.length]
  simp only [encStr, List.cons_append, decStr]
  rw [if_pos (by rw [hlen]; simp)]
  rw [hlen, List.take_left, List.drop_left]
  have hmap : Char.ofNat ∘ Char.toNat = id := funext Char.ofNat_toNat
  simp [List.map_map, hmap]

@[simp]
theorem decBytes_encBytes (l t : List Nat) :
    decBytes (encBytes l ++ t) = some (l, t) := by
  simp only [encBytes, List.cons_append, decBytes]
  rw [if_pos (by simp)]
  rw [List.take_left, List.drop_left]

@[simp]
theorem decStr_encStr_nil (s : String) : decStr (encStr s) = some (s, []) := by
  rw [show encStr s = encStr s ++ [] from (List.append_nil _).symm, decStr_encStr]

@[simp]
theorem decBytes_encBytes_nil (l : List Nat) : decBytes (encBytes l) = some (l, []) := by
  rw [show encBytes l = encBytes l ++ [] from (List.append_nil _).symm, decBytes_encBytes]

@[simp]
theorem unmarshal_marshal (ru : Runnable) :
    unmarshalRunnable (marshalRunnable ru) = some ru := by
  have h1 : marshalRunnable ru =
      encStr ru.Path ++ (encStr ru.Typ ++ (encBytes ru.Text ++ encBytes ru.Binary)) := by
    simp [marshalRunnable, List.append_assoc]
  rw [h1]
  simp [unmarshalRunnable]


/-! ## Helper lemmas -/

theorem sendTrace_ignores_instance (m1 m2 : MapSaver) (p : String) (st : MapState) :
    MapSaver.SendRunnablesTrace m1 p st = MapSaver.SendRunnablesTrace m2 p st := by
  induction st with
  | nil => rfl
  | cons e rest ih =>
    simp only [MapSaver.SendRunnablesTrace, ih]

theorem sendTrace_filter_form (m : MapSaver) (p : String) (st : MapState) :
    MapSaver.SendRunnablesTrace m p st =
      ((st.filter (fun e => goStartsWith e.1 p)).map
        (fun e => SendEvent.runnable (MapSaver.sentRunnable e))) ++ [SendEvent.done] := by
  induction st with
  | nil => rfl
  | cons e rest ih =>
    by_cases h : goStartsWith e.1 p
    · simp [MapSaver.SendRunnablesTrace, h, ih, List.filter_cons]
    · simp [MapSaver.SendRunnablesTrace, h, ih, List.filter_cons]

theorem marshalRunnable_ne_nil (ru : Runnable) : marshalRunnable ru ≠ [] := by
  simp [marshalRunnable, encStr]

theorem Saver.get_save (sa : Saver) (ru : Runnable) (p : URL) (r : PutResult)
    (db : DiscState) :
    Saver.GetRunnable sa p (Saver.saveRunnable sa ru p r db).2 =
      Except.ok { ru with Path := p.Path } := by
  unfold Saver.GetRunnable Saver.saveRunnable
  simp only [lookup_mapUpsert_self, Option.getD_some]
  cases hm : marshalRunnable ru with
  | nil => exact absurd hm (marshalRunnable_ne_nil ru)
  | cons x xs =>
    have hu : unmarshalRunnable (x :: xs) = some ru := by
      rw [← hm]
      exact unmarshal_marshal ru
    simp [hu]

/-! ## Claim theorems -/

/-- C10: the in-memory backend keeps all runnables in a single package-level
map shared by every `MapSaver` value: every operation's outcome is
independent of which `MapSaver` instance performs it, and a save performed
through one instance is immediately visible to `GetRunnable` and
`SendRunnables` performed through another, so distinct `MapSaver` instances
are never isolated stores. -/
theorem C10_mapsaver_shared_package_map :
    ∀ (m1 m2 : MapSaver) (s b : List Nat) (p : URL) (r : PutResult)
      (st : MapState) (pre : String),
      MapSaver.SaveText m1 s p r st = MapSaver.SaveText m2 s p r st
      ∧ MapSaver.SaveCode m1 s p r st = MapSaver.SaveCode m2 s p r st
      ∧ MapSaver.SaveBinary m1 b p r st = MapSaver.SaveBinary m2 b p r st
      ∧ MapSaver.GetRunnable m1 p st = MapSaver.GetRunnable m2 p st
      ∧ MapSaver.SendRunnablesTrace m1 pre st = MapSaver.SendRunnablesTrace m2 pre st
      ∧ MapSaver.GetRunnable m2 p (MapSaver.SaveText m1 s p r st).2 =
          { Path := "", Typ := "Text", Text := s, Binary := [] }
      ∧ MapSaver.GetRunnable m2 p (MapSaver.SaveBinary m1 b p r st).2 =
          { Path := "", Typ := "Binary", Text := [], Binary := b } := by
  intro m1 m2 s b p r st pre
  refine ⟨rfl, rfl, rfl, rfl, sendTrace_ignores_instance m1 m2 pre st, ?_, ?_⟩
  · simp [MapSaver.GetRunnable, MapSaver.SaveText]
  · simp [MapSaver.GetRunnable, MapSaver.SaveBinary]

/-- C7: for every path and payload, a `Put` immediately followed by a `Get`
on the same path returns a runnable whose kind equals the kind chosen at
write time and whose payload (text for Text/Script, bytes for Binary)
equals what was written — for the in-memory backend and the disc backend. -/
theorem C7_put_then_get_roundtrip :
    ∀ (m : MapSaver) (sa : Saver) (s b : List Nat) (p : URL) (r : PutResult)
      (st : MapState) (db : DiscState),
      MapSaver.GetRunnable m p (MapSaver.SaveText m s p r st).2 =
        { Path := "", Typ := "Text", Text := s, Binary := [] }
      ∧ MapSaver.GetRunnable m p (MapSaver.SaveCode m s p r st).2 =
          { Path := "", Typ := "Javascript", Text := s, Binary := [] }
      ∧ MapSaver.GetRunnable m p (MapSaver.SaveBinary m b p r st).2 =
          { Path := "", Typ := "Binary", Text := [], Binary := b }
      ∧ Saver.GetRunnable sa p (Saver.SaveText sa s p r db).2 =
          Except.ok { Path := p.Path, Typ := "Text", Text := s, Binary := [] }
      ∧ Saver.GetRunnable sa p (Saver.SaveCode sa s p r db).2 =
          Except.ok { Path := p.Path, Typ := "Javascript", Text := s, Binary := [] }
      ∧ Saver.GetRunnable sa p (Saver.SaveBinary sa b p r db).2 =
          Except.ok { Path := p.Path, Typ := "Binary", Text := [], Binary := b } := by
  intro m sa s b p r st db
  refine ⟨?_, ?_, ?_, ?_, ?_, ?_⟩
  · simp [MapSaver.GetRunnable, MapSaver.SaveText]
  · simp [MapSaver.GetRunnable, MapSaver.SaveCode]
  · simp [MapSaver.GetRunnable, MapSaver.SaveBinary]
  · exact Saver.get_save sa _ p r db
  · exact Saver.get_save sa _ p r db
  · exact Saver.get_save sa _ p r db

/-- C4: a save to a path that already holds a value reports
`Overwrote = true` in its `PutResult`, and a save to a path with no prior
value reports `Overwrote = false`; the same save call both performs the
prior-value check and writes the new value (its returned state is the
updated map).  Holds for all three kinds on the in-memory backend and for
`saveRunnable` on the disc backend (whose stored values are never empty). -/
theorem C4_put_reports_overwrote :
    ∀ (m : MapSaver) (sa : Saver) (s b : List Nat) (ru : Runnable) (p : URL)
      (r : PutResult) (st : MapState) (db : DiscState),
      r.Overwrote = false →
      (∀ bs, db.lookup p.Path = some bs → bs ≠ []) →
      ((MapSaver.SaveText m s p r st).1.Overwrote = (st.lookup p.Path).isSome
        ∧ (MapSaver.SaveText m s p r st).2 =
            mapUpsert st p.Path { Typ := "Text", val := s, bytes := [] })
      ∧ ((MapSaver.SaveCode m s p r st).1.Overwrote = (st.lookup p.Path).isSome
        ∧ (MapSaver.SaveCode m s p r st).2 =
            mapUpsert st p.Path { Typ := "Javascript", val := s, bytes := [] })
      ∧ ((MapSaver.SaveBinary m b p r st).1.Overwrote = (st.lookup p.Path).isSome
        ∧ (MapSaver.SaveBinary m b p r st).2 =
            mapUpsert st p.Path { Typ := "Binary", val := [], bytes := b })
      ∧ ((Saver.saveRunnable sa ru p r db).1.Overwrote = (db.lookup p.Path).isSome
        ∧ (Saver.saveRunnable sa ru p r db).2 =
            mapUpsert db p.Path (marshalRunnable ru)) := by
  intro m sa s b ru p r st db hr hwf
  refine ⟨⟨?_, rfl⟩, ⟨?_, rfl⟩, ⟨?_, rfl⟩, ⟨?_, rfl⟩⟩
  · cases h : st.lookup p.Path <;> simp [MapSaver.SaveText, h, hr]
  · cases h : st.lookup p.Path <;> simp [MapSaver.SaveCode, h, hr]
  · cases h : st.lookup p.Path <;> simp [MapSaver.SaveBinary, h, hr]
  · cases h : db.lookup p.Path with
    | none => simp [Saver.saveRunnable, h, hr]
    | some bs =>
      have hne : bs ≠ [] := hwf bs h
      have hlen : 0 < bs.length := List.length_pos.mpr hne
      simp [Saver.saveRunnable, h, hlen]

/-- Witness for C4 at concrete inputs: a fresh path reports no overwrite and
an occupied path reports an overwrite, on both backends. -/
theorem C4_witness :
    (({ Input := "", Overwrote := false, Message := "" } : PutResult).Overwrote = false)
    ∧ (MapSaver.SaveText { Logger := "" } [104] { Path := "/f" }
        { Input := "", Overwrote := false, Message := "" } []).1.Overwrote = false
    ∧ (MapSaver.SaveText { Logger := "" } [104] { Path := "/a" }
        { Input := "", Overwrote := false, Message := "" }
        [("/a", { Typ := "Text", val := [1], bytes := [] })]).1.Overwrote = true
    ∧ (Saver.saveRunnable { Logger := "" }
        { Path := "", Typ := "Text", Text := [104], Binary := [] } { Path := "/a" }
        { Input := "", Overwrote := false, Message := "" }
        [("/a", marshalRunnable { Path := "", Typ := "Text", Text := [9], Binary := [] })]
        ).1.Overwrote = true := by
  have hwfe : ∀ bs, ([] : DiscState).lookup ("/f") = some bs → bs ≠ [] := by
    intro bs h
    simp [List.lookup] at h
  have h1 := C4_put_reports_overwrote { Logger := "" } { Logger := "" } [104] [1]
    { Path := "", Typ := "Text", Text := [104], Binary := [] } { Path := "/f" }
    { Input := "", Overwrote := false, Message := "" } [] [] rfl hwfe
  have hwfa : ∀ bs,
      ([("/a", marshalRunnable { Path := "", Typ := "Text", Text := [9], Binary := [] })] :
        DiscState).lookup ("/a") = some bs → bs ≠ [] := by
    intro bs h
    simp [List.lookup] at h
    rw [← h]
    exact marshalRunnable_ne_nil _
  have h2 := C4_put_reports_overwrote { Logger := "" } { Logger := "" } [104] [1]
    { Path := "", Typ := "Text", Text := [104], Binary := [] } { Path := "/a" }
    { Input := "", Overwrote := false, Message := "" }
    [("/a", { Typ := "Text", val := [1], bytes := [] })]
    [("/a", marshalRunnable { Path := "", Typ := "Text", Text := [9], Binary := [] })]
    rfl hwfa
  refine ⟨rfl, ?_, ?_, ?_⟩
  · rw [h1.1.1]
    decide
  · rw [h2.1.1]
    decide
  · rw [h2.2.2.2.1]
    decide

theorem discScan_filter_form (pre : String) (db : DiscState)
    (hwf : ∀ k v, (k, v) ∈ db → ∃ ru, v = marshalRunnable ru) :
    Saver.sendScan pre db =
      ((db.filter (fun e => goStartsWith e.1 pre)).map
        (fun e => SendEvent.runnable (Saver.decodedRunnable e)), false) := by
  induction db with
  | nil => rfl
  | cons e rest ih =>
    have hwf' : ∀ k v, (k, v) ∈ rest → ∃ ru, v = marshalRunnable ru := by
      intro k v hm
      exact hwf k v (List.mem_cons_of_mem e hm)
    obtain ⟨ru, hru⟩ := hwf e.1 e.2 (by exact List.mem_cons_self e rest)
    by_cases h : goStartsWith e.1 pre
    · have hdec : unmarshalRunnable e.2 = some ru := by
        rw [hru]
        exact unmarshal_marshal ru
      simp only [Saver.sendScan, h, if_true, hdec, ih hwf', List.filter_cons,
        decide_eq_true_eq]
      simp [h, Saver.decodedRunnable, hdec]
    · simp only [Saver.sendScan, h, if_false, ih hwf', List.filter_cons]
      simp [h]

/-- C5: `SendRunnables` emits on its channel exactly the runnables whose
path starts with the requested leading string — each stored path at most
once when the store's keys are distinct — and sends the completion signal
on the done channel only after every matching runnable has been emitted,
never before: the trace is the matching emissions followed by `done`.
Holds for the in-memory backend, and for the disc backend whenever the
stored values are marshalled runnables (which every save maintains). -/
theorem C5_sendrunnables_trace :
    ∀ (m : MapSaver) (sa : Saver) (pre : String) (st : MapState) (db : DiscState),
      MapSaver.SendRunnablesTrace m pre st =
        ((st.filter (fun e => goStartsWith e.1 pre)).map
          (fun e => SendEvent.runnable (MapSaver.sentRunnable e))) ++ [SendEvent.done]
      ∧ ((st.map Prod.fst).Nodup →
          (((st.filter (fun e => goStartsWith e.1 pre)).map
            (fun e => MapSaver.sentRunnable e)).map Runnable.Path).Nodup)
      ∧ ((∀ k v, (k, v) ∈ db → ∃ ru, v = marshalRunnable ru) →
          Saver.SendRunnablesTrace sa pre db =
            ((db.filter (fun e => goStartsWith e.1 pre)).map
              (fun e => SendEvent.runnable (Saver.decodedRunnable e))) ++ [SendEvent.done]) := by
  intro m sa pre st db
  refine ⟨sendTrace_filter_form m pre st, ?_, ?_⟩
  · intro hnd
    have hpaths :
        ((st.filter (fun e => goStartsWith e.1 pre)).map
          (fun e => MapSaver.sentRunnable e)).map Runnable.Path =
        (st.filter (fun e => goStartsWith e.1 pre)).map Prod.fst := by
      rw [List.map_map]
      rfl
    rw [hpaths]
    have hsub : List.Sublist
        ((st.filter (fun e => goStartsWith e.1 pre)).map Prod.fst)
        (st.map Prod.fst) :=
      (List.filter_sublist st).map Prod.fst
    exact hnd.sublist hsub
  · intro hwf
    unfold Saver.SendRunnablesTrace
    rw [discScan_filter_form pre db hwf]

/-- Witness for C5 over the spec's concrete store: paths /a/x, /a/y, /b/z
with leading string "/a" emit exactly /a/x and /a/y and then done, on both
backends. -/
theorem C5_witness :
    (MapSaver.SendRunnablesTrace { Logger := "" } "/a"
      [("/a/x", { Typ := "Text", val := [1], bytes := [] }),
       ("/a/y", { Typ := "Javascript", val := [2], bytes := [] }),
       ("/b/z", { Typ := "Text", val := [3], bytes := [] })] =
      [SendEvent.runnable { Path := "/a/x", Typ := "Text", Text := [1], Binary := [] },
       SendEvent.runnable { Path := "/a/y", Typ := "Javascript", Text := [2], Binary := [] },
       SendEvent.done])
    ∧ Saver.SendRunnablesTrace { Logger := "" } "/a"
        [("/a/x", marshalRunnable { Path := "", Typ := "Text", Text := [1], Binary := [] }),
         ("/b/z", marshalRunnable { Path := "", Typ := "Text", Text := [3], Binary := [] })] =
        [SendEvent.runnable { Path := "/a/x", Typ := "Text", Text := [1], Binary := [] },
         SendEvent.done] := by
  have hwf : ∀ k v,
      (k, v) ∈ ([("/a/x", marshalRunnable { Path := "", Typ := "Text", Text := [1], Binary := [] }),
        ("/b/z", marshalRunnable { Path := "", Typ := "Text", Text := [3], Binary := [] })] :
        DiscState) → ∃ ru, v = marshalRunnable ru := by
    intro k v hm
    simp at hm
    rcases hm with ⟨_, hv⟩ | ⟨_, hv⟩
    · exact ⟨_, hv⟩
    · exact ⟨_, hv⟩
  have h := C5_sendrunnables_trace { Logger := "" } { Logger := "" } "/a"
    [("/a/x", { Typ := "Text", val := [1], bytes := [] }),
     ("/a/y", { Typ := "Javascript", val := [2], bytes := [] }),
     ("/b/z", { Typ := "Text", val := [3], bytes := [] })]
    [("/a/x", marshalRunnable { Path := "", Typ := "Text", Text := [1], Binary := [] }),
     ("/b/z", marshalRunnable { Path := "", Typ := "Text", Text := [3], Binary := [] })]
  refine ⟨?_, ?_⟩
  · rw [h.1]
    decide
  · rw [h.2.2 hwf]
    simp [Saver.decodedRunnable, unmarshal_marshal]
    decide

/-- C3: a PUT payload whose first 200 bytes, read as a Go string, contain
the Unicode replacement character is classified as Binary and persisted via
the store's binary save; `Interpreter.IsCode` is never consulted. -/
theorem C3_invalid_rune_payload_saved_binary
    (m : MapSaver) (isCode : List Nat → Bool × String) (u : URL) (b : List Nat)
    (st : MapState)
    (h1 : goToLower (lastN u.Path 5) ≠ "/dump")
    (h2 : goToLower (lastN u.Path 5) ≠ "/logs")
    (h3 : goContainsInvalidRune (b.take 200) = true) :
    (Service.Put m isCode u b st).savedVia = some ("Binary")
    ∧ (Service.Put m isCode u b st).checkedIsCode = false
    ∧ (Service.Put m isCode u b st).result = Except.ok
        { Input := "Binary", Overwrote := (st.lookup u.Path).isSome,
          Message := "I think this is a binary file, saving it as such" }
    ∧ (Service.Put m isCode u b st).state =
        mapUpsert st u.Path { Typ := "Binary", val := [], bytes := b } := by
  cases hq : st.lookup u.Path <;>
    simp [Service.Put, h1, h2, h3, MapSaver.SaveBinary, hq]

/-- Witness for C3: the single byte 0xFF is not valid UTF-8, so a PUT of it
to the fresh path /p is stored via the binary save with no compile check. -/
theorem C3_witness :
    goToLower (lastN ("/p") 5) ≠ "/dump"
    ∧ goToLower (lastN ("/p") 5) ≠ "/logs"
    ∧ goContainsInvalidRune (([255] : List Nat).take 200) = true
    ∧ (Service.Put { Logger := "" } (fun _ => (true, "")) { Path := "/p" }
        [255] []).savedVia = some ("Binary")
    ∧ (Service.Put { Logger := "" } (fun _ => (true, "")) { Path := "/p" }
        [255] []).checkedIsCode = false := by
  refine ⟨by decide, by decide, by decide, ?_, ?_⟩
  · exact (C3_invalid_rune_payload_saved_binary { Logger := "" } (fun _ => (true, ""))
      { Path := "/p" } [255] [] (by decide) (by decide) (by decide)).1
  · exact (C3_invalid_rune_payload_saved_binary { Logger := "" } (fun _ => (true, ""))
      { Path := "/p" } [255] [] (by decide) (by decide) (by decide)).2.1

/-- C8: a PUT whose path ends case-insensitively in /dump or /logs returns
the corresponding reserved-path error; no classification happens, no save
runs, and the store is unchanged. -/
theorem C8_reserved_suffix_put_rejected
    (m : MapSaver) (isCode : List Nat → Bool × String) (u : URL) (b : List Nat)
    (st : MapState) :
    (goToLower (lastN u.Path 5) = "/dump" →
      Service.Put m isCode u b st =
        { result := Except.error PutErr.putToDump, state := st,
          checkedIsCode := false, savedVia := none, wroteOverwriteNotice := false })
    ∧ (goToLower (lastN u.Path 5) = "/logs" →
      Service.Put m isCode u b st =
        { result := Except.error PutErr.putToLogs, state := st,
          checkedIsCode := false, savedVia := none, wroteOverwriteNotice := false }) := by
  constructor
  · intro h
    simp [Service.Put, h]
  · intro h
    have hne : goToLower (lastN u.Path 5) ≠ "/dump" := by
      rw [h]
      decide
    simp [Service.Put, h, hne]

/-- Witness for C8: mixed-case reserved suffixes are rejected with the
matching distinct error and an unchanged (empty) store. -/
theorem C8_witness :
    goToLower (lastN ("/x/DuMp") 5) = "/dump"
    ∧ Service.Put { Logger := "" } (fun _ => (true, "")) { Path := "/x/DuMp" } [1] [] =
        { result := Except.error PutErr.putToDump, state := [],
          checkedIsCode := false, savedVia := none, wroteOverwriteNotice := false }
    ∧ goToLower (lastN ("/y/LOGS") 5) = "/logs"
    ∧ Service.Put { Logger := "" } (fun _ => (true, "")) { Path := "/y/LOGS" } [1] [] =
        { result := Except.error PutErr.putToLogs, state := [],
          checkedIsCode := false, savedVia := none, wroteOverwriteNotice := false } := by
  refine ⟨by decide, ?_, by decide, ?_⟩
  · exact (C8_reserved_suffix_put_rejected { Logger := "" } (fun _ => (true, ""))
      { Path := "/x/DuMp" } [1] []).1 (by decide)
  · exact (C8_reserved_suffix_put_rejected { Logger := "" } (fun _ => (true, ""))
      { Path := "/y/LOGS" } [1] []).2 (by decide)

/-- C6: a non-write request to a non-reserved path dispatches on the stored
runnable: nothing stored (or an empty text/binary payload) yields status 400
with an explanatory body; a Binary runnable yields its raw bytes with
status 200; a Text runnable yields the stored text verbatim with status
200; a Script runnable is delegated to the interpreter and its outcome is
propagated. -/
theorem C6_run_dispatch
    (m : MapSaver) (interp : List Nat → Except String (List RunEffect))
    (u : URL) (st : MapState)
    (hd : goToLower (lastN u.Path 5) ≠ "/dump")
    (_hl : goToLower (lastN u.Path 5) ≠ "/logs") :
    ((MapSaver.GetRunnable m u st).Typ = ""
      ∨ ((MapSaver.GetRunnable m u st).Typ ≠ "Binary"
          ∧ (MapSaver.GetRunnable m u st).Text = [])
      ∨ ((MapSaver.GetRunnable m u st).Typ = "Binary"
          ∧ (MapSaver.GetRunnable m u st).Binary = []) →
      Service.Run m interp u st =
        Except.ok [RunEffect.status 400, RunEffect.body (nothingAtPathMsg u.Path)])
    ∧ ((MapSaver.GetRunnable m u st).Typ = "Binary" →
        (MapSaver.GetRunnable m u st).Binary ≠ [] →
      Service.Run m interp u st =
        Except.ok [RunEffect.status 200,
          RunEffect.body (MapSaver.GetRunnable m u st).Binary])
    ∧ ((MapSaver.GetRunnable m u st).Typ = "Text" →
        (MapSaver.GetRunnable m u st).Text ≠ [] →
      Service.Run m interp u st =
        Except.ok [RunEffect.status 200,
          RunEffect.body (MapSaver.GetRunnable m u st).Text])
    ∧ ((MapSaver.GetRunnable m u st).Typ = "Javascript" →
        (MapSaver.GetRunnable m u st).Text ≠ [] →
      Service.Run m interp u st = interp (MapSaver.GetRunnable m u st).Text) := by
  refine ⟨?_, ?_, ?_, ?_⟩
  · intro h
    simp only [Service.Run, if_neg hd]
    rw [if_pos h]
  · intro hT hB
    simp [Service.Run, if_neg hd, hT, hB]
  · intro hT hB
    simp [Service.Run, if_neg hd, hT, hB]
  · intro hT hB
    simp only [Service.Run, if_neg hd, hT]
    have hcond : ¬ ((MapSaver.GetRunnable m u st).Typ = ""
        ∨ ((MapSaver.GetRunnable m u st).Typ ≠ "Binary"
            ∧ (MapSaver.GetRunnable m u st).Text = [])
        ∨ ((MapSaver.GetRunnable m u st).Typ = "Binary"
            ∧ (MapSaver.GetRunnable m u st).Binary = [])) := by
      simp [hT, hB]
    simp [hcond, hT, hB]
    cases hi : interp (MapSaver.GetRunnable m u st).Text <;> simp [hi]

/-- Witness for C6 at four concrete stores: an empty store gives 400, a
binary runnable streams back with 200, a text runnable echoes with 200, and
a script runnable is handed to the interpreter whose outcome is returned. -/
theorem C6_witness :
    goToLower (lastN ("/w") 5) ≠ "/dump"
    ∧ goToLower (lastN ("/w") 5) ≠ "/logs"
    ∧ Service.Run { Logger := "" } (fun _ => Except.ok []) { Path := "/w" } [] =
        Except.ok [RunEffect.status 400, RunEffect.body (nothingAtPathMsg ("/w"))]
    ∧ Service.Run { Logger := "" } (fun _ => Except.ok []) { Path := "/w" }
        [("/w", { Typ := "Binary", val := [], bytes := [7, 8] })] =
        Except.ok [RunEffect.status 200, RunEffect.body [7, 8]]
    ∧ Service.Run { Logger := "" } (fun _ => Except.ok []) { Path := "/w" }
        [("/w", { Typ := "Text", val := [104, 105], bytes := [] })] =
        Except.ok [RunEffect.status 200, RunEffect.body [104, 105]]
    ∧ Service.Run { Logger := "" } (fun s => Except.ok [RunEffect.body s]) { Path := "/w" }
        [("/w", { Typ := "Javascript", val := [49], bytes := [] })] =
        Except.ok [RunEffect.body [49]] := by
  refine ⟨by decide, by decide, ?_, ?_, ?_, ?_⟩
  · exact (C6_run_dispatch { Logger := "" } (fun _ => Except.ok []) { Path := "/w" } []
      (by decide) (by decide)).1 (by left; decide)
  · have h := (C6_run_dispatch { Logger := "" } (fun _ => Except.ok []) { Path := "/w" }
      [("/w", { Typ := "Binary", val := [], bytes := [7, 8] })]
      (by decide) (by decide)).2.1 (by decide) (by decide)
    rw [h]
    decide
  · have h := (C6_run_dispatch { Logger := "" } (fun _ => Except.ok []) { Path := "/w" }
      [("/w", { Typ := "Text", val := [104, 105], bytes := [] })]
      (by decide) (by decide)).2.2.1 (by decide) (by decide)
    rw [h]
    decide
  · have h := (C6_run_dispatch { Logger := "" } (fun s => Except.ok [RunEffect.body s])
      { Path := "/w" } [("/w", { Typ := "Javascript", val := [49], bytes := [] })]
      (by decide) (by decide)).2.2.2 (by decide) (by decide)
    rw [h]
    decide

/-- C1: every call to `Javascript.Run` evaluates the script against the
freshly built context of its own request — `newContext` plus this call's
bindings, with no timers and no globals inherited from anywhere — so the
result of each execution in any sequence of executions is a function of its
own source and request alone, unaffected by any prior execution. -/
theorem C1_fresh_context_isolation :
    ∀ (engine : Engine) (prior jobs : List (String × Request)) (c : String)
      (r : Request) (i : Nat),
      (runAll engine (prior ++ [(c, r)])).getLast? = some (Javascript.Run engine c r)
      ∧ (runAll engine jobs)[i]? = (jobs[i]?.map (fun j => Javascript.Run engine j.1 j.2))
      ∧ (contextForRun r).timers = []
      ∧ (contextForRun r).requestBinding = some r
      ∧ contextForRun r =
          { globals := newContext.globals ++ ["request", "response", "console"],
            timers := newContext.timers, requestBinding := some r } := by
  intro engine prior jobs c r i
  refine ⟨?_, ?_, rfl, rfl, rfl⟩
  · simp [runAll]
  · simp [runAll]

/-- C2 (claim violated by the code): a script whose top-level promise never
settles does NOT produce a timeout fault — after the 30-second drain loop
exits, `Run` skips the only error branch (Rejected) and takes
`promise.Result()` of the still-pending promise as the value, returning
success with an empty body.  Rejection and fulfilment behave as claimed. -/
theorem C2_pending_promise_no_timeout_fault :
    Javascript.Run stuckPromiseEngine ("new Promise(function (res, rej) stall())") req0 =
      Except.ok []
    ∧ Javascript.Run rejectedPromiseEngine ("Promise.reject(boom)") req0 =
        Except.error ("script promise rejected: boom")
    ∧ Javascript.Run (fulfilledPromiseEngine (JSValue.string ("hi"))) ("fetchish()") req0 =
        Except.ok (strBytes ("hi")) := by
  exact ⟨rfl, rfl, rfl⟩

/-- C9 counterexample: a script returning the plain (non-int32) number 1.5
writes nothing to the response, not the textual form "1.5" the claim
requires for every primitive number. -/
theorem C9_counterexample_number_not_written :
    ¬ (Javascript.Run (constEngine (JSValue.number ("1.5"))) ("1.5") req0 =
        Except.ok (strBytes ("1.5"))) := by
  decide

/-- C9 as amended: after a fault-free execution the final value is
serialized as follows — an object value is JSON-encoded; a string,
32-bit-integer, boolean, or big-integer value is written in textual form;
any other value (undefined, null, and numbers that are not 32-bit
integers) writes nothing additional. -/
theorem C9_final_value_serialization :
    ∀ (c j s t u : String) (r : Request) (n : Int) (b : Bool),
      Javascript.Run (constEngine (JSValue.object j)) c r = Except.ok (strBytes j)
      ∧ Javascript.Run (constEngine (JSValue.string s)) c r = Except.ok (strBytes s)
      ∧ Javascript.Run (constEngine (JSValue.int32 n)) c r =
          Except.ok (strBytes (toString n))
      ∧ Javascript.Run (constEngine (JSValue.bigint t)) c r = Except.ok (strBytes t)
      ∧ Javascript.Run (constEngine (JSValue.boolean b)) c r =
          Except.ok (strBytes (if b then "true" else "false"))
      ∧ Javascript.Run (constEngine JSValue.undefined) c r = Except.ok []
      ∧ Javascript.Run (constEngine JSValue.null) c r = Except.ok []
      ∧ Javascript.Run (constEngine (JSValue.number u)) c r = Except.ok [] := by
  intro c j s t u r n b
  exact ⟨rfl, rfl, rfl, rfl, rfl, rfl, rfl, rfl⟩
